import Mathlib

/-!
Verification development for the Robo AI dynamic illustration generator.

The definitions below are a shallow embedding of the batch-orchestration
pipeline of `src/App.tsx` and the result-collection management of
`src/components/OutputArea.tsx`.  The external generation capability
(`src/services/geminiService.ts`) is modelled as an oracle
`gen : Nat → String → Option String` mapping the zero-based request index and
the prompt to either a produced base64 payload (`some`) or a rejection
(`none`); every issued call is recorded in an explicit trace so that
sequencing properties can be stated.  React state updates are modelled as
explicit state passing on an `AppState` record.
-/

/-- Mirrors `ConsistencyLocks` of `src/types.ts`. -/
structure ConsistencyLocks where
  headAndFaceShape : Bool
  eyesStyle : Bool
  mouthStyle : Bool
  outlineThickness : Bool
  shadingStyle : Bool
deriving DecidableEq

/-- Mirrors `PromptTuning` of `src/types.ts`. -/
structure PromptTuning where
  expressionIntensity : Nat
  propSize : Nat
deriving DecidableEq

/-- Mirrors `BaseImage` of `src/types.ts`: the uploaded file is kept only
through its MIME type (`file.type`), which is all `App.tsx` reads from it. -/
structure BaseImage where
  fileType : String
  base64 : String
deriving DecidableEq

/-- Mirrors `GeneratedImage` of `src/types.ts`. -/
structure GeneratedImage where
  id : String
  prompt : String
  base64 : String
deriving DecidableEq

/-- The argument record of `generateVariation` as assembled in
`executeGeneration` (App.tsx lines 130-140).  `baseData` is
`baseImage.base64.split(',')[1]`, hence optional. -/
structure GenRequest where
  baseData : Option String
  baseMimeType : String
  prompt : String
  primaryColor : String
  secondaryColor : String
  useStrictPalette : Bool
  consistencyLocks : ConsistencyLocks
  promptTuning : PromptTuning
deriving DecidableEq

/-- One recorded call to the generation client, together with the zero-based
position in the batch at which it was issued. -/
structure GenCall where
  index : Nat
  request : GenRequest
deriving DecidableEq

/-- The React state of the `App` component that the orchestration logic
reads and writes (App.tsx lines 15-69). -/
structure AppState where
  baseImage : Option BaseImage
  variations : String
  primaryColor : String
  secondaryColor : String
  useStrictPalette : Bool
  consistencyLocks : ConsistencyLocks
  promptTuning : PromptTuning
  generatedImages : List GeneratedImage
  isLoading : Bool
  progress : Option (Nat × Nat)
  error : Option String
  presets : List String
  savePresetsConfirmation : Option (List String)
deriving DecidableEq

/-- JavaScript `s.split(sep)` for a single-character separator, over the
character list of `s`: every separator character ends a segment, and an empty
string yields one empty segment. -/
def splitCharAux (sep : Char) : List Char → List String
  | [] => [""]
  | c :: rest =>
    let r := splitCharAux sep rest
    if c = sep then "" :: r
    else
      match r with
      | [] => [String.mk [c]]
      | h :: t => String.mk (c :: h.data) :: t

/-- JavaScript `s.split(sep)` for a single-character separator. -/
def jsSplitChar (s : String) (sep : Char) : List String :=
  splitCharAux sep s.data

/-- JavaScript `s.split('\n')`. -/
def splitLines (s : String) : List String :=
  jsSplitChar s (Char.ofNat 10)

/-- JavaScript `String.prototype.trim` restricted to the ASCII whitespace
characters (space, tab, carriage return, line feed), which are the only
whitespace characters the orchestration paths can encounter; the full
Unicode whitespace set of the host language is not modelled. -/
def jsTrim (s : String) : String :=
  String.mk (((s.data.dropWhile Char.isWhitespace).reverse.dropWhile Char.isWhitespace).reverse)

/-- The effective request list of `executeGeneration` and `handleGenerate`
(App.tsx lines 113 and 166):
`variations.split('\n').map(p => p.trim()).filter(p => p.length > 0)`. -/
def splitVariations (s : String) : List String :=
  ((splitLines s).map jsTrim).filter (fun p => decide (0 < p.length))

/-- The request list in the words of the specification: the input split on
line breaks, each line trimmed, and empty lines discarded. -/
def specRequestList (s : String) : List String :=
  ((splitLines s).map jsTrim).filter (fun p => !(p == ""))

/-- The `GeneratedImage` pushed on success at batch index `i`
(App.tsx lines 141-145); `now` stands for the `Date.now()` sample. -/
def mkImage (now i : Nat) (p b : String) : GeneratedImage :=
  { id := toString now ++ "-" ++ toString i
    prompt := p
    base64 := "data:image/png;base64," ++ b }

/-- The error message surfaced when generation fails for a prompt
(App.tsx line 149). -/
def failureMessage (p : String) : String :=
  "Failed to generate variation for: \"" ++ p ++ "\". Please try again."

/-- Outcome of the sequential generation loop of `executeGeneration`
(App.tsx lines 126-155): the trace of issued calls, the accumulated
successful images, and the error set on first failure (`none` on a full
success drain). -/
structure LoopOut where
  calls : List GenCall
  images : List GeneratedImage
  error : Option String
deriving DecidableEq

/-- The `for` loop of `executeGeneration` (App.tsx lines 126-155): issue the
requests strictly sequentially; on success push the new image and publish the
grown list; on the first failure record the error naming the prompt and stop
without attempting the remaining requests. -/
def genLoop (req : String → GenRequest) (gen : Nat → String → Option String)
    (now : Nat) : List String → Nat → List GeneratedImage → LoopOut
  | [], _, acc => { calls := [], images := acc, error := none }
  | p :: rest, i, acc =>
    match gen i p with
    | some b =>
      let out := genLoop req gen now rest (i + 1) (acc ++ [mkImage now i p b])
      { calls := { index := i, request := req p } :: out.calls
        images := out.images
        error := out.error }
    | none =>
      { calls := [{ index := i, request := req p }]
        images := acc
        error := some (failureMessage p) }

/-- The request record passed to the generation client for a given prompt,
assembled from the base image and the style state (App.tsx lines 130-140). -/
def mkRequest (base : BaseImage) (st : AppState) (p : String) : GenRequest :=
  { baseData := (jsSplitChar base.base64 (Char.ofNat 44)).get? 1
    baseMimeType := base.fileType
    prompt := p
    primaryColor := st.primaryColor
    secondaryColor := st.secondaryColor
    useStrictPalette := st.useStrictPalette
    consistencyLocks := st.consistencyLocks
    promptTuning := st.promptTuning }

/-- Mirrors `executeGeneration` (App.tsx lines 108-159).  Returns the state
as it stands when the function has finished (after the final `setIsLoading`
and `setProgress` updates) together with the trace of generation calls
issued.  `error = some e` records that `setError(e)` was the last error
update of the run. -/
def executeGeneration (st : AppState) (gen : Nat → String → Option String)
    (now : Nat) : AppState × List GenCall :=
  match st.baseImage with
  | none => ({ st with error := some "Please upload a base image first." }, [])
  | some base =>
    let variationPrompts := splitVariations st.variations
    if variationPrompts.length = 0 then
      ({ st with error := some "Please enter at least one variation prompt." }, [])
    else
      let out := genLoop (mkRequest base st) gen now variationPrompts 0 []
      ({ st with
          isLoading := false
          progress := none
          error := out.error
          generatedImages := out.images }, out.calls)

/-- Mirrors `handleGenerate` (App.tsx lines 161-183): precondition checks
(base image present, non-empty request list, at most 30 requests), then the
preset diff; when new phrases exist the confirmation gate opens without any
generation call, otherwise `executeGeneration` runs directly. -/
def handleGenerate (st : AppState) (gen : Nat → String → Option String)
    (now : Nat) : AppState × List GenCall :=
  match st.baseImage with
  | none => ({ st with error := some "Please upload a base image first." }, [])
  | some _ =>
    let variationPrompts := splitVariations st.variations
    if variationPrompts.length = 0 then
      ({ st with error := some "Please enter at least one variation prompt." }, [])
    else if 30 < variationPrompts.length then
      ({ st with error := some "Batch mode supports up to 30 variations per run." }, [])
    else
      let newVariations :=
        (variationPrompts.filter (fun v => !(st.presets.contains v))).eraseDups
      if newVariations.isEmpty then
        executeGeneration st gen now
      else
        ({ st with savePresetsConfirmation := some newVariations }, [])

/-- Mirrors `handleConfirmSavePresets` (App.tsx lines 185-191): persist the
pending new phrases into the preset list, close the gate, and run the batch. -/
def handleConfirmSavePresets (st : AppState) (gen : Nat → String → Option String)
    (now : Nat) : AppState × List GenCall :=
  let st1 :=
    match st.savePresetsConfirmation with
    | some nv => { st with presets := (st.presets ++ nv).eraseDups }
    | none => st
  executeGeneration { st1 with savePresetsConfirmation := none } gen now

/-- Mirrors `handleDeclineSavePresets` (App.tsx lines 193-196): close the
gate without persisting and run the batch. -/
def handleDeclineSavePresets (st : AppState) (gen : Nat → String → Option String)
    (now : Nat) : AppState × List GenCall :=
  executeGeneration { st with savePresetsConfirmation := none } gen now

/-- Mirrors `handleDeleteImage` (App.tsx lines 198-200). -/
def handleDeleteImage (images : List GeneratedImage) (id : String) :
    List GeneratedImage :=
  images.filter (fun img => img.id != id)

/-- Mirrors `handleUpdateImageBase64` (App.tsx lines 268-274). -/
def handleUpdateImageBase64 (images : List GeneratedImage) (id : String)
    (newBase64 : String) : List GeneratedImage :=
  images.map (fun img => if img.id == id then { img with base64 := newBase64 } else img)

/-- The capture group of the regular expression `:(.*?);` of `base64ToFile`
(`src/utils/fileUtils.ts`): the characters between the leftmost colon and the
first following semicolon, or `none` when no such pair exists. -/
def extractMime (header : String) : Option String :=
  match header.data.dropWhile (fun c => c != Char.ofNat 58) with
  | [] => none
  | _ :: rest =>
    if rest.any (fun c => c == Char.ofNat 59) then
      some (String.mk (rest.takeWhile (fun c => c != Char.ofNat 59)))
    else
      none

/-- The observable part of `base64ToFile` (`src/utils/fileUtils.ts`) used by
the edit handlers: `none` models the `null` returns (missing comma separator
or missing MIME match), `some mime` the type of the constructed `File`. -/
def base64ToFileMime (dataUrl : String) : Option String :=
  let arr := jsSplitChar dataUrl (Char.ofNat 44)
  if arr.length < 2 then none
  else extractMime (arr.headD "")

/-- The argument record of `removeBackground` and `addOutline` calls. -/
structure EditCall where
  data : Option String
  mimeType : String
deriving DecidableEq

/-- Outcome of one post-hoc edit handler: the resulting collection, the error
surfaced via `setError` (`none` when `setError` was not called), the trace of
external transform calls, and whether the handler re-threw to its caller. -/
structure EditOutcome where
  images : List GeneratedImage
  error : Option String
  calls : List EditCall
  threw : Bool
deriving DecidableEq

/-- Mirrors `handleRemoveBackground` (App.tsx lines 202-233); the external
background-removal transform is the oracle `remover`. -/
def handleRemoveBackground (images : List GeneratedImage) (id : String)
    (remover : Option String → String → Option String) : EditOutcome :=
  match images.find? (fun img => img.id == id) with
  | none =>
    { images := images
      error := some "Could not find the image to modify."
      calls := []
      threw := false }
  | some imageToUpdate =>
    match base64ToFileMime imageToUpdate.base64 with
    | none =>
      { images := images
        error := some "Could not process the image file."
        calls := []
        threw := false }
    | some mime =>
      let data := (jsSplitChar imageToUpdate.base64 (Char.ofNat 44)).get? 1
      match remover data mime with
      | some resultBase64 =>
        { images := handleUpdateImageBase64 images id
            ("data:image/png;base64," ++ resultBase64)
          error := none
          calls := [{ data := data, mimeType := mime }]
          threw := false }
      | none =>
        { images := images
          error := some "Sorry, the background could not be removed. This can happen with complex images. Please try again."
          calls := [{ data := data, mimeType := mime }]
          threw := true }

/-- Mirrors `handleAddOutline` (App.tsx lines 235-266); the external outline
transform is the oracle `outliner` taking the image payload, its MIME type,
the outline color and the outline width. -/
def handleAddOutline (images : List GeneratedImage) (id : String)
    (color : String) (width : Nat)
    (outliner : Option String → String → String → Nat → Option String) : EditOutcome :=
  match images.find? (fun img => img.id == id) with
  | none =>
    { images := images
      error := some "Could not find the image to modify."
      calls := []
      threw := false }
  | some imageToUpdate =>
    match base64ToFileMime imageToUpdate.base64 with
    | none =>
      { images := images
        error := some "Could not process the image file."
        calls := []
        threw := false }
    | some mime =>
      let data := (jsSplitChar imageToUpdate.base64 (Char.ofNat 44)).get? 1
      match outliner data mime color width with
      | some resultBase64 =>
        { images := handleUpdateImageBase64 images id
            ("data:image/png;base64," ++ resultBase64)
          error := none
          calls := [{ data := data, mimeType := mime }]
          threw := false }
      | none =>
        { images := images
          error := some "Sorry, the outline could not be added. Please try different settings or another image."
          calls := [{ data := data, mimeType := mime }]
          threw := true }

/-- Mirrors `handleDeleteFromModal` (`src/components/OutputArea.tsx`
lines 73-86): the parent collection update together with the adjustment of
the focused detail-view index. -/
def handleDeleteFromModal (images : List GeneratedImage)
    (modalImageIndex : Option Nat) (idToDelete : String) :
    List GeneratedImage × Option Nat :=
  let currentTotal := images.length
  let newImages := handleDeleteImage images idToDelete
  let newIndex : Option Nat :=
    if currentTotal ≤ 1 then none
    else
      match modalImageIndex with
      | some m => if currentTotal - 1 ≤ m then some (m - 1) else some m
      | none => none
  (newImages, newIndex)

/-- Mirrors the selection effect of `OutputArea`
(`src/components/OutputArea.tsx` lines 26-29).  Every collection mutation in
`App.tsx` calls `setGeneratedImages` with a freshly constructed array, so the
effect keyed on the `generatedImages` prop re-runs after each one and
overwrites the previous selection with the identifiers of all current
entries; the previous selection is ignored by the effect body. -/
def selectionAfterImagesChange (prevSelection : List String)
    (images : List GeneratedImage) : List String :=
  images.map (fun img => img.id)

/-- The collection mutations `App.tsx` performs through
`setGeneratedImages`: publishing a snapshot during or after a run (lines
121 and 146), deleting one entry (lines 198-200), and replacing one
image payload in place (lines 221-227, 254-260 and 268-274). -/
inductive CollectionMutation where
  | publish (newImages : List GeneratedImage)
  | deleteImage (id : String)
  | updateImage (id : String) (newBase64 : String)
deriving DecidableEq

/-- Applies one collection mutation. -/
def applyMutation : CollectionMutation → List GeneratedImage → List GeneratedImage
  | CollectionMutation.publish l, _ => l
  | CollectionMutation.deleteImage id, imgs => handleDeleteImage imgs id
  | CollectionMutation.updateImage id d, imgs => handleUpdateImageBase64 imgs id d

/-- A concrete base image used to exercise the theorems below on closed
inputs. -/
def sampleBase : BaseImage :=
  { fileType := "image/png", base64 := "data:image/png;base64,QUJD" }

/-- A concrete application state with a base image, three variation lines
and all three lines already present as presets. -/
def sampleState : AppState :=
  { baseImage := some sampleBase
    variations := "happy grin\nwinking\nshocked"
    primaryColor := "#4F46E5"
    secondaryColor := "#10B981"
    useStrictPalette := true
    consistencyLocks := ⟨true, true, true, true, true⟩
    promptTuning := ⟨50, 50⟩
    generatedImages := []
    isLoading := false
    progress := none
    error := none
    presets := ["happy grin", "winking", "shocked"]
    savePresetsConfirmation := none }

/-- A generation oracle that always succeeds. -/
def sampleGen : Nat → String → Option String := fun _ _ => some "QUJD"

/-- A generation oracle that fails exactly at batch index 1. -/
def sampleGenFail : Nat → String → Option String :=
  fun i _ => if i = 1 then none else some "QUJD"

/-- A concrete two-entry collection. -/
def sampleImages : List GeneratedImage :=
  [{ id := "7-0", prompt := "happy grin", base64 := "data:image/png;base64,QUJD" },
   { id := "7-1", prompt := "winking", base64 := "data:image/png;base64,REVG" }]

/-- A concrete state in which the preset confirmation gate is open for one
new phrase. -/
def sampleGateState : AppState :=
  { sampleState with savePresetsConfirmation := some ["juggling"] }

/-- A variation block with 31 non-blank lines. -/
def sampleOversizedVariations : String :=
  "a\nb\nc\nd\ne\nf\ng\nh\ni\nj\nk\nl\nm\nn\no\np\nq\nr\ns\nt\nu\nv\nw\nx\ny\nz\naa\nab\nac\nad\nae"

/-- Characterization of the generation loop when every request succeeds: the
call trace enumerates all prompts in order and the accumulated images extend
the accumulator with one image per prompt. -/
theorem genLoop_success (req : String → GenRequest) (gen : Nat → String → Option String)
    (now : Nat) :
    ∀ (l : List String) (i : Nat) (acc : List GeneratedImage),
      (∀ j, j < l.length → (gen (i + j) (l.getD j "")).isSome = true) →
      genLoop req gen now l i acc =
        { calls := (l.enumFrom i).map (fun x => { index := x.1, request := req x.2 })
          images := acc ++ (l.enumFrom i).map (fun x => mkImage now x.1 x.2 ((gen x.1 x.2).getD ""))
          error := none }
  | [], i, acc, _ => by simp [genLoop, List.enumFrom]
  | p :: rest, i, acc, h => by
    have h0 : (gen i p).isSome = true := by
      have := h 0 (Nat.succ_pos _)
      simpa using this
    obtain ⟨b, hb⟩ := Option.isSome_iff_exists.mp h0
    have ih := genLoop_success req gen now rest (i + 1) (acc ++ [mkImage now i p b])
      (fun j hj => by
        have e : i + 1 + j = i + (j + 1) := by omega
        rw [e]
        have := h (j + 1) (Nat.succ_lt_succ hj)
        simpa using this)
    simp [genLoop, hb, ih, List.enumFrom, List.append_assoc]

/-- Characterization of the generation loop when the first failure occurs at
relative position `j`: the trace covers exactly the first `j + 1` prompts,
the accumulated images cover the first `j`, and the error names the failing
prompt. -/
theorem genLoop_failure (req : String → GenRequest) (gen : Nat → String → Option String)
    (now : Nat) :
    ∀ (j : Nat) (l : List String) (i : Nat) (acc : List GeneratedImage),
      j < l.length →
      (∀ k, k < j → (gen (i + k) (l.getD k "")).isSome = true) →
      gen (i + j) (l.getD j "") = none →
      genLoop req gen now l i acc =
        { calls := ((l.take (j + 1)).enumFrom i).map
            (fun x => { index := x.1, request := req x.2 })
          images := acc ++ ((l.take j).enumFrom i).map
            (fun x => mkImage now x.1 x.2 ((gen x.1 x.2).getD ""))
          error := some (failureMessage (l.getD j "")) }
  | 0, [], _, _, hj, _, _ => absurd hj (by simp)
  | 0, p :: rest, i, acc, _, _, hfail => by
    have hf : gen i p = none := by simpa using hfail
    simp [genLoop, hf, List.enumFrom]
  | j + 1, [], _, _, hj, _, _ => absurd hj (by simp)
  | j + 1, p :: rest, i, acc, hj, hsucc, hfail => by
    have h0 : (gen i p).isSome = true := by simpa using hsucc 0 (Nat.succ_pos _)
    obtain ⟨b, hb⟩ := Option.isSome_iff_exists.mp h0
    have ih := genLoop_failure req gen now j rest (i + 1) (acc ++ [mkImage now i p b])
      (Nat.lt_of_succ_lt_succ hj)
      (fun k hk => by
        have e : i + 1 + k = i + (k + 1) := by omega
        rw [e]
        simpa using hsucc (k + 1) (Nat.succ_lt_succ hk))
      (by
        have e : i + 1 + j = i + (j + 1) := by omega
        rw [e]
        simpa using hfail)
    simp [genLoop, hb, ih, List.enumFrom, List.append_assoc, List.take_succ_cons]

/-- Unfolding of `executeGeneration` on a state that passes both
preconditions. -/
theorem executeGeneration_run (st : AppState) (gen : Nat → String → Option String)
    (now : Nat) (base : BaseImage) (hb : st.baseImage = some base)
    (hne : ¬ (splitVariations st.variations).length = 0) :
    executeGeneration st gen now =
      ({ st with
          isLoading := false
          progress := none
          error := (genLoop (mkRequest base st) gen now (splitVariations st.variations) 0 []).error
          generatedImages :=
            (genLoop (mkRequest base st) gen now (splitVariations st.variations) 0 []).images },
        (genLoop (mkRequest base st) gen now (splitVariations st.variations) 0 []).calls) := by
  simp [executeGeneration, hb, hne]

/-- C1: For every base image and every variation text whose split/trim/filter
yields K non-blank lines (1 ≤ K ≤ 30), running the batch issues generation
calls strictly sequentially in list order: exactly K calls when every call
succeeds, and exactly i+1 calls when the first failure occurs at zero-based
index i, with requests after index i never attempted. -/
theorem c1_batch_sequential_calls (st : AppState) (gen : Nat → String → Option String)
    (now : Nat) (base : BaseImage) (hb : st.baseImage = some base)
    (hK1 : 1 ≤ (splitVariations st.variations).length)
    (hK30 : (splitVariations st.variations).length ≤ 30) :
    ((∀ j, j < (splitVariations st.variations).length →
        (gen j ((splitVariations st.variations).getD j "")).isSome = true) →
      (executeGeneration st gen now).2 =
        ((splitVariations st.variations).enumFrom 0).map
          (fun x => { index := x.1, request := mkRequest base st x.2 }) ∧
      (executeGeneration st gen now).2.length = (splitVariations st.variations).length ∧
      (executeGeneration st gen now).2.map (fun c => c.request.prompt) =
        splitVariations st.variations ∧
      (executeGeneration st gen now).2.map (fun c => c.index) =
        List.range (splitVariations st.variations).length) ∧
    (∀ i0, i0 < (splitVariations st.variations).length →
      (∀ k, k < i0 → (gen k ((splitVariations st.variations).getD k "")).isSome = true) →
      gen i0 ((splitVariations st.variations).getD i0 "") = none →
      (executeGeneration st gen now).2 =
        (((splitVariations st.variations).take (i0 + 1)).enumFrom 0).map
          (fun x => { index := x.1, request := mkRequest base st x.2 }) ∧
      (executeGeneration st gen now).2.length = i0 + 1 ∧
      (executeGeneration st gen now).2.map (fun c => c.request.prompt) =
        (splitVariations st.variations).take (i0 + 1) ∧
      (executeGeneration st gen now).2.map (fun c => c.index) = List.range (i0 + 1)) := by
  have hne : ¬ (splitVariations st.variations).length = 0 := by omega
  have hrun := executeGeneration_run st gen now base hb hne
  constructor
  · intro hall
    have hloop := genLoop_success (mkRequest base st) gen now
      (splitVariations st.variations) 0 [] (fun j hj => by simpa using hall j hj)
    have hcalls : (executeGeneration st gen now).2 =
        ((splitVariations st.variations).enumFrom 0).map
          (fun x => { index := x.1, request := mkRequest base st x.2 }) := by
      rw [hrun]
      simp [hloop]
    refine ⟨hcalls, ?_, ?_, ?_⟩
    · rw [hcalls]
      simp [List.enumFrom_length]
    · rw [hcalls, List.map_map]
      have he : ((fun c : GenCall => c.request.prompt) ∘
          (fun x : Nat × String => ({ index := x.1, request := mkRequest base st x.2 } : GenCall)))
          = Prod.snd := by
        funext x
        rfl
      rw [he, List.enumFrom_map_snd]
    · rw [hcalls, List.map_map]
      have he : ((fun c : GenCall => c.index) ∘
          (fun x : Nat × String => ({ index := x.1, request := mkRequest base st x.2 } : GenCall)))
          = Prod.fst := by
        funext x
        rfl
      rw [he, List.enumFrom_map_fst, List.range_eq_range']
  · intro i0 hi hsucc hfail
    have hloop := genLoop_failure (mkRequest base st) gen now i0
      (splitVariations st.variations) 0 []
      hi (fun k hk => by simpa using hsucc k hk) (by simpa using hfail)
    have htl : ((splitVariations st.variations).take (i0 + 1)).length = i0 + 1 := by
      rw [List.length_take]
      omega
    have hcalls : (executeGeneration st gen now).2 =
        (((splitVariations st.variations).take (i0 + 1)).enumFrom 0).map
          (fun x => { index := x.1, request := mkRequest base st x.2 }) := by
      rw [hrun]
      simp [hloop]
    refine ⟨hcalls, ?_, ?_, ?_⟩
    · rw [hcalls]
      simp [List.enumFrom_length, htl]
    · rw [hcalls, List.map_map]
      have he : ((fun c : GenCall => c.request.prompt) ∘
          (fun x : Nat × String => ({ index := x.1, request := mkRequest base st x.2 } : GenCall)))
          = Prod.snd := by
        funext x
        rfl
      rw [he, List.enumFrom_map_snd]
    · rw [hcalls, List.map_map]
      have he : ((fun c : GenCall => c.index) ∘
          (fun x : Nat × String => ({ index := x.1, request := mkRequest base st x.2 } : GenCall)))
          = Prod.fst := by
        funext x
        rfl
      rw [he, List.enumFrom_map_fst, List.range_eq_range', htl]

/-- Witness for C1 at a concrete state, oracle and clock. -/
theorem c1_batch_sequential_calls_witness :
    1 ≤ (splitVariations sampleState.variations).length ∧
    (splitVariations sampleState.variations).length ≤ 30 ∧
    (executeGeneration sampleState sampleGen 7).2.length =
      (splitVariations sampleState.variations).length := by
  refine ⟨by decide, by decide, ?_⟩
  exact ((c1_batch_sequential_calls sampleState sampleGen 7 sampleBase rfl
    (by decide) (by decide)).1 (by decide)).2.1

/-- C2: When a generation call for some prompt fails mid-batch, the run
aborts immediately: the surfaced error message contains that prompt's text,
the in-flight progress state is cleared, and the previously accumulated
successful results of this run remain in the collection unchanged (no
rollback). -/
theorem c2_failure_aborts_and_keeps_results (st : AppState)
    (gen : Nat → String → Option String) (now : Nat) (base : BaseImage)
    (hb : st.baseImage = some base) (i0 : Nat)
    (hi : i0 < (splitVariations st.variations).length)
    (hsucc : ∀ k, k < i0 → (gen k ((splitVariations st.variations).getD k "")).isSome = true)
    (hfail : gen i0 ((splitVariations st.variations).getD i0 "") = none) :
    (executeGeneration st gen now).1.error =
      some (failureMessage ((splitVariations st.variations).getD i0 "")) ∧
    (∃ u v, (executeGeneration st gen now).1.error =
      some (u ++ (splitVariations st.variations).getD i0 "" ++ v)) ∧
    (executeGeneration st gen now).1.progress = none ∧
    (executeGeneration st gen now).1.isLoading = false ∧
    (executeGeneration st gen now).1.generatedImages =
      (((splitVariations st.variations).take i0).enumFrom 0).map
        (fun x => mkImage now x.1 x.2 ((gen x.1 x.2).getD "")) ∧
    (executeGeneration st gen now).1.generatedImages.length = i0 := by
  have hne : ¬ (splitVariations st.variations).length = 0 := by omega
  have hrun := executeGeneration_run st gen now base hb hne
  have hloop := genLoop_failure (mkRequest base st) gen now i0
    (splitVariations st.variations) 0 [] hi
    (fun k hk => by simpa using hsucc k hk) (by simpa using hfail)
  rw [hrun]
  refine ⟨by simp [hloop], ?_, by simp, by simp, by simp [hloop], ?_⟩
  · refine ⟨"Failed to generate variation for: \"", "\". Please try again.", ?_⟩
    simp [hloop, failureMessage]
  · simp [hloop, List.enumFrom_length, List.length_take]
    omega

/-- Witness for C2: the middle request of a three-line batch fails; the run
stops with one accumulated image and the error names the failing prompt. -/
theorem c2_failure_aborts_and_keeps_results_witness :
    (executeGeneration sampleState sampleGenFail 7).1.error =
      some (failureMessage "winking") ∧
    (executeGeneration sampleState sampleGenFail 7).1.generatedImages.length = 1 := by
  have h := c2_failure_aborts_and_keeps_results sampleState sampleGenFail 7 sampleBase rfl 1
    (by decide) (by decide) (by decide)
  exact ⟨h.1, h.2.2.2.2.2⟩

/-- The code's request-list derivation coincides with the request list as
described by the specification. -/
theorem splitVariations_eq_specRequestList (s : String) :
    splitVariations s = specRequestList s := by
  unfold splitVariations specRequestList
  apply List.filter_congr
  intro p _
  obtain ⟨l⟩ := p
  cases l with
  | nil => rfl
  | cons c cs =>
    simp only [String.length, List.length_cons]
    rw [decide_eq_true (by omega : 0 < cs.length + 1)]
    have hne : ({ data := c :: cs } : String) ≠ "" := by
      intro h
      have := congrArg String.data h
      simp at this
    simp [hne]


/-- C3: For every input text, the effective request list equals the input
split on line breaks with each line trimmed and empty lines discarded; after
a run in which all K ≤ 30 generation calls succeed, the result collection has
length K and, for every index i, the i-th entry's originating prompt equals
the i-th non-blank trimmed input line. -/
theorem c3_request_list_and_result_prompts (st : AppState)
    (gen : Nat → String → Option String) (now : Nat) (base : BaseImage)
    (hb : st.baseImage = some base)
    (hK1 : 1 ≤ (splitVariations st.variations).length)
    (hK30 : (splitVariations st.variations).length ≤ 30)
    (hall : ∀ j, j < (splitVariations st.variations).length →
      (gen j ((splitVariations st.variations).getD j "")).isSome = true) :
    (∀ s, splitVariations s = specRequestList s) ∧
    (executeGeneration st gen now).1.generatedImages.length =
      (splitVariations st.variations).length ∧
    (executeGeneration st gen now).1.generatedImages.map (fun img => img.prompt) =
      splitVariations st.variations := by
  have hne : ¬ (splitVariations st.variations).length = 0 := by omega
  have hrun := executeGeneration_run st gen now base hb hne
  have hloop := genLoop_success (mkRequest base st) gen now
    (splitVariations st.variations) 0 [] (fun j hj => by simpa using hall j hj)
  have himg : (executeGeneration st gen now).1.generatedImages =
      ((splitVariations st.variations).enumFrom 0).map
        (fun x => mkImage now x.1 x.2 ((gen x.1 x.2).getD "")) := by
    rw [hrun]
    simp [hloop]
  refine ⟨splitVariations_eq_specRequestList, ?_, ?_⟩
  · rw [himg]
    simp [List.enumFrom_length]
  · rw [himg, List.map_map]
    have he : ((fun img : GeneratedImage => img.prompt) ∘
        (fun x : Nat × String => mkImage now x.1 x.2 ((gen x.1 x.2).getD "")))
        = Prod.snd := by
      funext x
      rfl
    rw [he, List.enumFrom_map_snd]

/-- Witness for C3: a three-line batch succeeds fully; the collection carries
the three prompts in input order. -/
theorem c3_request_list_and_result_prompts_witness :
    (executeGeneration sampleState sampleGen 7).1.generatedImages.map
      (fun img => img.prompt) = splitVariations sampleState.variations := by
  exact (c3_request_list_and_result_prompts sampleState sampleGen 7 sampleBase rfl
    (by decide) (by decide) (by decide)).2.2

/-- C4: Precondition validation happens before any external call: for every
input, if the base image is absent the no-base-image error is reported and
the Generation Client is never called; if the trimmed/filtered request list
is empty the no-variations error is reported; and if it has more than 30
entries (e.g., 31 non-blank lines) the batch-too-large error is reported and
no generation call is ever issued. -/
theorem c4_preconditions_block_generation (st : AppState)
    (gen : Nat → String → Option String) (now : Nat) :
    (st.baseImage = none →
      handleGenerate st gen now =
        ({ st with error := some "Please upload a base image first." }, []) ∧
      executeGeneration st gen now =
        ({ st with error := some "Please upload a base image first." }, [])) ∧
    (st.baseImage ≠ none → splitVariations st.variations = [] →
      handleGenerate st gen now =
        ({ st with error := some "Please enter at least one variation prompt." }, [])) ∧
    (st.baseImage ≠ none → 30 < (splitVariations st.variations).length →
      handleGenerate st gen now =
        ({ st with error := some "Batch mode supports up to 30 variations per run." }, [])) := by
  refine ⟨?_, ?_, ?_⟩
  · intro h
    exact ⟨by simp [handleGenerate, h], by simp [executeGeneration, h]⟩
  · intro h hempty
    obtain ⟨base, hbase⟩ := Option.ne_none_iff_exists.mp h
    simp [handleGenerate, ← hbase, hempty]
  · intro h hlarge
    obtain ⟨base, hbase⟩ := Option.ne_none_iff_exists.mp h
    have h0 : ¬ (splitVariations st.variations).length = 0 := by omega
    simp [handleGenerate, ← hbase, h0, hlarge]

/-- Witness for C4 at three concrete states: missing base image, blank
variation text, and 31 non-blank variation lines. -/
theorem c4_preconditions_block_generation_witness :
    (handleGenerate { sampleState with baseImage := none } sampleGen 7).2 = [] ∧
    (handleGenerate { sampleState with variations := " \n\n " } sampleGen 7).1.error =
      some "Please enter at least one variation prompt." ∧
    (handleGenerate { sampleState with variations := sampleOversizedVariations } sampleGen 7).2 = [] ∧
    (handleGenerate { sampleState with variations := sampleOversizedVariations } sampleGen 7).1.error =
      some "Batch mode supports up to 30 variations per run." := by
  have h1 := (c4_preconditions_block_generation
    { sampleState with baseImage := none } sampleGen 7).1 rfl
  have h2 := (c4_preconditions_block_generation
    { sampleState with variations := " \n\n " } sampleGen 7).2.1 (by decide) (by decide)
  have h3 := (c4_preconditions_block_generation
    { sampleState with variations := sampleOversizedVariations } sampleGen 7).2.2
    (by decide) (by decide)
  exact ⟨by rw [h1.1], by rw [h2], by rw [h3], by rw [h3]⟩

/-- C5 counterexample: the claim states that an edit directed at a deleted id
raises or surfaces no error, but `handleRemoveBackground` invoked for an id
that has been deleted from the collection surfaces the
"Could not find the image to modify." error. -/
theorem c5_counterexample_error_surfaced :
    (handleRemoveBackground (handleDeleteImage sampleImages "7-1") "7-1"
      (fun _ _ => some "QUJD")).error = some "Could not find the image to modify." ∧
    ¬ (handleRemoveBackground (handleDeleteImage sampleImages "7-1") "7-1"
      (fun _ _ => some "QUJD")).error = none := by
  exact ⟨by decide, by decide⟩

/-- C5 amended: for every edit directed at an id absent from the collection,
the collection is unchanged and no external transform is called; the direct
in-place data update (used by the text overlay) is a silent no-op, but
background removal and outline surface the
"Could not find the image to modify." error. -/
theorem c5_deleted_id_edits_amended (images : List GeneratedImage) (id : String)
    (remover : Option String → String → Option String)
    (outliner : Option String → String → String → Nat → Option String)
    (color : String) (width : Nat) (newBase64 : String)
    (habsent : ∀ img, img ∈ images → img.id ≠ id) :
    handleRemoveBackground images id remover =
      { images := images, error := some "Could not find the image to modify."
        calls := [], threw := false } ∧
    handleAddOutline images id color width outliner =
      { images := images, error := some "Could not find the image to modify."
        calls := [], threw := false } ∧
    handleUpdateImageBase64 images id newBase64 = images := by
  have hfind : images.find? (fun img => img.id == id) = none := by
    apply List.find?_eq_none.mpr
    intro x hx
    simpa using habsent x hx
  refine ⟨?_, ?_, ?_⟩
  · simp [handleRemoveBackground, hfind]
  · simp [handleAddOutline, hfind]
  · unfold handleUpdateImageBase64
    conv_rhs => rw [← List.map_id images]
    apply List.map_congr_left
    intro x hx
    have hne : (x.id == id) = false := by
      simpa using habsent x hx
    simp [hne]

/-- Witness for the amended C5 at a concrete collection and deleted id. -/
theorem c5_deleted_id_edits_amended_witness :
    (handleRemoveBackground (handleDeleteImage sampleImages "7-1") "7-1"
      (fun _ _ => some "QUJD")).images = handleDeleteImage sampleImages "7-1" ∧
    handleUpdateImageBase64 (handleDeleteImage sampleImages "7-1") "7-1" "x" =
      handleDeleteImage sampleImages "7-1" := by
  have h := c5_deleted_id_edits_amended (handleDeleteImage sampleImages "7-1") "7-1"
    (fun _ _ => some "QUJD") (fun _ _ _ _ => some "QUJD") "#000000" 4 "x"
    (by decide)
  exact ⟨by rw [h.1], h.2.2⟩


/-- The request record ignores the preset list. -/
theorem mkRequest_presets_irrelevant (base : BaseImage) (st : AppState)
    (P : List String) :
    (fun p => mkRequest base { st with presets := P } p) =
      (fun p => mkRequest base st p) := by
  funext p
  rfl

/-- The batch run neither reads nor writes the preset list: running it on a
state whose presets were replaced yields the same calls and the same state
up to the preserved presets field. -/
theorem executeGeneration_presets_irrelevant (st : AppState) (P : List String)
    (gen : Nat → String → Option String) (now : Nat) :
    executeGeneration { st with presets := P } gen now =
      ({ (executeGeneration st gen now).1 with presets := P },
       (executeGeneration st gen now).2) := by
  obtain ⟨bi, v, pc, sc, sp, cl, pt, gi, il, pr, er, ps, spc⟩ := st
  cases bi with
  | none => simp [executeGeneration]
  | some base =>
    by_cases h0 : (splitVariations v).length = 0
    · simp [executeGeneration, h0]
    · have hreq : mkRequest base
          ⟨some base, v, pc, sc, sp, cl, pt, gi, il, pr, er, P, spc⟩ =
          mkRequest base ⟨some base, v, pc, sc, sp, cl, pt, gi, il, pr, er, ps, spc⟩ := by
        funext p
        rfl
      simp [executeGeneration, h0, hreq]

/-- The batch run leaves the configuration fields of the state unchanged. -/
theorem executeGeneration_preserves_config (st : AppState)
    (gen : Nat → String → Option String) (now : Nat) :
    (executeGeneration st gen now).1.baseImage = st.baseImage ∧
    (executeGeneration st gen now).1.variations = st.variations ∧
    (executeGeneration st gen now).1.presets = st.presets ∧
    (executeGeneration st gen now).1.savePresetsConfirmation = st.savePresetsConfirmation := by
  cases hb : st.baseImage with
  | none => simp [executeGeneration, hb]
  | some base =>
    by_cases h0 : (splitVariations st.variations).length = 0
    · simp [executeGeneration, hb, h0]
    · simp [executeGeneration, hb, h0]

/-- C6: For every request list that triggers the pre-run preset confirmation
gate (some phrases not in the preset vocabulary), confirming and declining
lead to identical generation behavior: the same request list, in the same
order, is submitted with the same constraints, and the two paths differ only
in whether the new phrases are added to the persisted preset list; the gate
never alters the request list. -/
theorem c6_gate_confirm_decline_equivalent (st : AppState)
    (gen : Nat → String → Option String) (now : Nat) (nv : List String)
    (hgate : st.savePresetsConfirmation = some nv) :
    (handleConfirmSavePresets st gen now).2 = (handleDeclineSavePresets st gen now).2 ∧
    (handleConfirmSavePresets st gen now).1.baseImage =
      (handleDeclineSavePresets st gen now).1.baseImage ∧
    (handleConfirmSavePresets st gen now).1.variations =
      (handleDeclineSavePresets st gen now).1.variations ∧
    (handleConfirmSavePresets st gen now).1.primaryColor =
      (handleDeclineSavePresets st gen now).1.primaryColor ∧
    (handleConfirmSavePresets st gen now).1.secondaryColor =
      (handleDeclineSavePresets st gen now).1.secondaryColor ∧
    (handleConfirmSavePresets st gen now).1.useStrictPalette =
      (handleDeclineSavePresets st gen now).1.useStrictPalette ∧
    (handleConfirmSavePresets st gen now).1.consistencyLocks =
      (handleDeclineSavePresets st gen now).1.consistencyLocks ∧
    (handleConfirmSavePresets st gen now).1.promptTuning =
      (handleDeclineSavePresets st gen now).1.promptTuning ∧
    (handleConfirmSavePresets st gen now).1.generatedImages =
      (handleDeclineSavePresets st gen now).1.generatedImages ∧
    (handleConfirmSavePresets st gen now).1.isLoading =
      (handleDeclineSavePresets st gen now).1.isLoading ∧
    (handleConfirmSavePresets st gen now).1.progress =
      (handleDeclineSavePresets st gen now).1.progress ∧
    (handleConfirmSavePresets st gen now).1.error =
      (handleDeclineSavePresets st gen now).1.error ∧
    (handleConfirmSavePresets st gen now).1.savePresetsConfirmation =
      (handleDeclineSavePresets st gen now).1.savePresetsConfirmation ∧
    (handleConfirmSavePresets st gen now).1.presets = (st.presets ++ nv).eraseDups ∧
    (handleDeclineSavePresets st gen now).1.presets = st.presets ∧
    (handleConfirmSavePresets st gen now).1.variations = st.variations ∧
    (handleDeclineSavePresets st gen now).1.variations = st.variations := by
  have hconfirm : handleConfirmSavePresets st gen now =
      executeGeneration
        { { st with savePresetsConfirmation := none } with
            presets := (st.presets ++ nv).eraseDups } gen now := by
    simp [handleConfirmSavePresets, hgate]
  have key := executeGeneration_presets_irrelevant
    { st with savePresetsConfirmation := none } ((st.presets ++ nv).eraseDups) gen now
  have hdec : handleDeclineSavePresets st gen now =
      executeGeneration { st with savePresetsConfirmation := none } gen now := rfl
  have hcfg := executeGeneration_preserves_config
    { st with savePresetsConfirmation := none } gen now
  rw [hconfirm, hdec, key]
  refine ⟨rfl, rfl, rfl, rfl, rfl, rfl, rfl, rfl, rfl, rfl, rfl, rfl, rfl, rfl, ?_, ?_, ?_⟩
  · exact hcfg.2.2.1
  · exact hcfg.2.1
  · exact hcfg.2.1

/-- Witness for C6 at a concrete open-gate state. -/
theorem c6_gate_confirm_decline_equivalent_witness :
    (handleConfirmSavePresets sampleGateState sampleGen 7).2 =
      (handleDeclineSavePresets sampleGateState sampleGen 7).2 ∧
    (handleConfirmSavePresets sampleGateState sampleGen 7).1.presets =
      (sampleGateState.presets ++ ["juggling"]).eraseDups := by
  have h := c6_gate_confirm_decline_equivalent sampleGateState sampleGen 7 ["juggling"] rfl
  exact ⟨h.1, h.2.2.2.2.2.2.2.2.2.2.2.2.2.1⟩

/-- C7: For every collection state and every id present in it, an in-place
update with new image data changes only the image payload of the entry with
that id: that entry's identifier and originating prompt, every other entry,
and the collection's length and order are all unchanged. -/
theorem c7_update_in_place_frame (images : List GeneratedImage) (id : String)
    (newBase64 : String) (hmem : id ∈ images.map (fun img => img.id)) :
    (handleUpdateImageBase64 images id newBase64).length = images.length ∧
    (∀ (j : Nat) (orig : GeneratedImage), images[j]? = some orig →
      (orig.id = id →
        (handleUpdateImageBase64 images id newBase64)[j]? =
          some { orig with base64 := newBase64 }) ∧
      (orig.id ≠ id →
        (handleUpdateImageBase64 images id newBase64)[j]? = some orig)) := by
  constructor
  · simp [handleUpdateImageBase64]
  · intro j orig hj
    have hmap : (handleUpdateImageBase64 images id newBase64)[j]? =
        some (if orig.id == id then { orig with base64 := newBase64 } else orig) := by
      unfold handleUpdateImageBase64
      rw [List.getElem?_map, hj]
      rfl
    constructor
    · intro he
      rw [hmap]
      simp [he]
    · intro hne
      rw [hmap]
      have hne2 : (orig.id == id) = false := by simpa using hne
      simp [hne2]

/-- Witness for C7: updating the first of two entries in place rewrites only
its payload and leaves the second entry untouched. -/
theorem c7_update_in_place_frame_witness :
    (handleUpdateImageBase64 sampleImages "7-0" "newdata").length = sampleImages.length ∧
    (handleUpdateImageBase64 sampleImages "7-0" "newdata")[1]? =
      some { id := "7-1", prompt := "winking", base64 := "data:image/png;base64,REVG" } := by
  have h := c7_update_in_place_frame sampleImages "7-0" "newdata" (by decide)
  refine ⟨h.1, ?_⟩
  exact ((h.2 1 { id := "7-1", prompt := "winking", base64 := "data:image/png;base64,REVG" }
    (by decide)).2 (by decide))

/-- C8: For every collection and focused detail-view index, deleting the
entry at the last display position while it is the focused entry moves the
focus to the new last valid index, or closes the detail view entirely when
the collection becomes empty; the focus index never becomes out of range. -/
theorem c8_delete_last_focused_clamps (front : List GeneratedImage)
    (lastImg : GeneratedImage)
    (hnodup : ((front ++ [lastImg]).map (fun img => img.id)).Nodup) :
    (handleDeleteFromModal (front ++ [lastImg])
        (some ((front ++ [lastImg]).length - 1)) lastImg.id).1 = front ∧
    (front = [] →
      (handleDeleteFromModal (front ++ [lastImg])
        (some ((front ++ [lastImg]).length - 1)) lastImg.id).2 = none) ∧
    (front ≠ [] →
      (handleDeleteFromModal (front ++ [lastImg])
        (some ((front ++ [lastImg]).length - 1)) lastImg.id).2 =
        some (front.length - 1)) ∧
    (∀ k, (handleDeleteFromModal (front ++ [lastImg])
        (some ((front ++ [lastImg]).length - 1)) lastImg.id).2 = some k →
      k < (handleDeleteFromModal (front ++ [lastImg])
        (some ((front ++ [lastImg]).length - 1)) lastImg.id).1.length) := by
  have hnotin : ∀ x ∈ front, x.id ≠ lastImg.id := by
    rw [List.map_append] at hnodup
    simp [List.nodup_append] at hnodup
    exact fun x hx => hnodup.2 x hx
  have hfil : (front ++ [lastImg]).filter (fun img => img.id != lastImg.id) = front := by
    rw [List.filter_append]
    have h1 : front.filter (fun img => img.id != lastImg.id) = front := by
      apply List.filter_eq_self.mpr
      intro x hx
      simpa using hnotin x hx
    have h2 : [lastImg].filter (fun img => img.id != lastImg.id) = [] := by simp
    rw [h1, h2, List.append_nil]
  cases front with
  | nil =>
    refine ⟨?_, ?_, ?_, ?_⟩
    · simp [handleDeleteFromModal, handleDeleteImage]
    · intro _
      simp [handleDeleteFromModal]
    · intro h
      exact absurd rfl h
    · intro k hk
      simp [handleDeleteFromModal] at hk
  | cons f fs =>
    have hlen : ((f :: fs) ++ [lastImg]).length = fs.length + 2 := by simp
    refine ⟨?_, ?_, ?_, ?_⟩
    · simpa [handleDeleteFromModal, handleDeleteImage] using hfil
    · intro h
      exact absurd h (by simp)
    · intro _
      simp [handleDeleteFromModal, hlen]
    · intro k hk
      have h1 : (handleDeleteFromModal ((f :: fs) ++ [lastImg])
          (some (((f :: fs) ++ [lastImg]).length - 1)) lastImg.id).1 = f :: fs := by
        simpa [handleDeleteFromModal, handleDeleteImage] using hfil
      rw [h1]
      have hk2 : fs.length = k := by
        simpa [handleDeleteFromModal, hlen] using hk
      simp only [List.length_cons]
      omega

/-- Witness for C8: deleting the focused last entry of a two-entry collection
moves the focus to index 0, the new last valid index. -/
theorem c8_delete_last_focused_clamps_witness :
    (handleDeleteFromModal sampleImages (some 1) "7-1").1 =
      [{ id := "7-0", prompt := "happy grin", base64 := "data:image/png;base64,QUJD" }] ∧
    (handleDeleteFromModal sampleImages (some 1) "7-1").2 = some 0 := by
  have h := c8_delete_last_focused_clamps
    [{ id := "7-0", prompt := "happy grin", base64 := "data:image/png;base64,QUJD" }]
    { id := "7-1", prompt := "winking", base64 := "data:image/png;base64,REVG" }
    (by decide)
  exact ⟨h.1, h.2.2.1 (by decide)⟩

/-- C9: Every time the collection is wholesale-replaced (after each new batch
run), the selection set equals the set of identifiers of all current entries
(all selected by default); and for every id, after delete(id) the id is no
longer a member of the selection set. -/
theorem c9_selection_defaults_and_delete (prevSel : List String)
    (st : AppState) (gen : Nat → String → Option String) (now : Nat)
    (imgs : List GeneratedImage) (id : String) :
    selectionAfterImagesChange prevSel (executeGeneration st gen now).1.generatedImages =
      (executeGeneration st gen now).1.generatedImages.map (fun img => img.id) ∧
    id ∉ selectionAfterImagesChange prevSel (handleDeleteImage imgs id) := by
  refine ⟨rfl, ?_⟩
  intro hmem
  unfold selectionAfterImagesChange handleDeleteImage at hmem
  obtain ⟨x, hx, hxe⟩ := List.mem_map.mp hmem
  have hfil := List.mem_filter.mp hx
  rw [hxe] at hfil
  simp at hfil

/-- C10 (implicit): after every change to the generated-image collection — an
append published during a run, a wholesale replace, a delete, or an in-place
edit — the selection set is reset to exactly the identifiers of all entries
currently in the collection, so any manual deselection made by the user is
discarded by the next collection mutation of any kind, not only by a
wholesale replace. -/
theorem c10_any_mutation_resets_selection (m : CollectionMutation)
    (imgs : List GeneratedImage) (prevSel : List String) (a : String)
    (hdesel : a ∉ prevSel)
    (hmem : a ∈ (applyMutation m imgs).map (fun img => img.id)) :
    selectionAfterImagesChange prevSel (applyMutation m imgs) =
      (applyMutation m imgs).map (fun img => img.id) ∧
    a ∈ selectionAfterImagesChange prevSel (applyMutation m imgs) :=
  ⟨rfl, hmem⟩

/-- Witness for C10: an entry the user had deselected is selected again after
an unrelated entry is deleted. -/
theorem c10_any_mutation_resets_selection_witness :
    "7-1" ∈ selectionAfterImagesChange []
      (applyMutation (CollectionMutation.deleteImage "7-0") sampleImages) :=
  (c10_any_mutation_resets_selection (CollectionMutation.deleteImage "7-0")
    sampleImages [] "7-1" (by decide) (by decide)).2
